import Mathlib

/-!
Verification of the c9watch core against its specification.

The development shallowly embeds the Rust sources:
  * `src/src-tauri/src/session/status.rs` — session-status engine
  * `src/src-tauri/src/pty_writer.rs`     — session ownership registry
  * `src/src-tauri/src/web_server.rs`     — realtime gateway handlers
  * `src/src-tauri/src/bridge.rs`         — subprocess bridge ack handling

Pure functions become Lean functions; side effects (process stops, sleeps,
file touches, registry inserts, bridge writes) are recorded as explicit
action traces so that ordering claims can be stated and proved.
-/

deriving instance DecidableEq for Except

namespace C9watch

/-! ## Data model of transcript entries

Modelled from the spec: the entry types are declared in
`src/src-tauri/src/session/parser.rs`, which is not included in the
sources; the spec (§3 SessionEntry) fixes the shape as a tagged variant
over `{User{content}, Assistant{content, stop_reason}, Other}` with
assistant content items `{Text, ToolUse{id, name, input},
ToolResult{tool_use_id, is_error}}`, and `status.rs` additionally reads a
`timestamp` string from each entry's base record. -/

/-- Tool invocation arguments (`serde_json::Value` in the source). The
status engine never inspects this payload: it only forwards it to the
permission checker, so the carrier is the serialized JSON text. -/
abbrev ToolInput := String

/-- One item of an assistant message's content
(`MessageContent` in `parser.rs`; shape per spec §3). -/
inductive MessageContent where
  | text (text : String)
  | toolUse (id : String) (name : String) (input : ToolInput)
  | toolResult (tool_use_id : String) (content : String) (is_error : Option Bool)
deriving DecidableEq, Repr

/-- An assistant message: ordered content items plus an optional stop
reason (`AssistantMessage` in `parser.rs`; shape per spec §3; the other
fields — model, id, role, stop_sequence, usage — are never read by the
status engine). -/
structure AssistantMessage where
  content : List MessageContent
  stop_reason : Option String
deriving DecidableEq, Repr

/-- A transcript entry (`SessionEntry` in `parser.rs`; shape per spec §3).
Each variant carries the base record's `timestamp` string, the only base
field the status engine reads. -/
inductive SessionEntry where
  | user (timestamp : String) (content : String)
  | assistant (timestamp : String) (message : AssistantMessage)
  | other (timestamp : String)
deriving DecidableEq, Repr

/-- `SessionStatus` from `status.rs`. -/
inductive SessionStatus where
  | working
  | needsPermission
  | waitingForInput
  | connecting
deriving DecidableEq, Repr

/-- The Permission Evaluator: `PermissionChecker::is_auto_approved(name,
input)` lives in `src/src-tauri/src/session/permissions.rs`, which is not
included; the spec (§2, §6) treats it as an external collaborator
`isAutoApproved(toolName, input) -> bool`, so the embedding passes it
around as an arbitrary function. -/
abbrev Checker := String → ToolInput → Bool

/-! ## Status engine (`status.rs`) -/

/-- `message.content.iter().any(|c| matches!(c, MessageContent::ToolUse{..}))`
from `analyze_assistant_message` / `determine_status_with_context`. -/
def has_tool_use (content : List MessageContent) : Bool :=
  content.any fun c =>
    match c with
    | .toolUse _ _ _ => true
    | _ => false

/-- The `tool_use_ids` vector collected by `check_all_tools_completed`
(status.rs:187-192). -/
def tool_use_ids (content : List MessageContent) : List String :=
  content.filterMap fun c =>
    match c with
    | .toolUse id _ _ => some id
    | _ => none

/-- The `tool_result_ids` vector collected by `check_all_tools_completed`
(status.rs:200-205); also the `completed_ids` vector of
`are_pending_tools_auto_approved` (status.rs:148-157). -/
def tool_result_ids (content : List MessageContent) : List String :=
  content.filterMap fun c =>
    match c with
    | .toolResult tool_use_id _ _ => some tool_use_id
    | _ => none

/-- `check_all_tools_completed` (status.rs:185-215): every `ToolUse.id`
occurs among the `ToolResult.tool_use_id`s. -/
def check_all_tools_completed (content : List MessageContent) : Bool :=
  if (tool_use_ids content).isEmpty then
    true
  else
    (tool_use_ids content).all fun id => (tool_result_ids content).contains id

/-- `has_pending_tool_uses` (status.rs:180-182). -/
def has_pending_tool_uses (content : List MessageContent) : Bool :=
  !check_all_tools_completed content

/-- `are_pending_tools_auto_approved` (status.rs:144-177): every tool use
whose id has no result (`completed_ids` = `tool_result_ids`) is
auto-approved by the checker. -/
def are_pending_tools_auto_approved (checker : Checker)
    (content : List MessageContent) : Bool :=
  content.all fun item =>
    match item with
    | .toolUse id name input =>
      (tool_result_ids content).contains id || checker name input
    | _ => true

/-- `analyze_assistant_message` (status.rs:96-141). -/
def analyze_assistant_message (checker : Checker)
    (message : AssistantMessage) : SessionStatus :=
  if has_tool_use message.content then
    if check_all_tools_completed message.content then
      match message.stop_reason with
      | some "end_turn" => .waitingForInput
      | some "tool_use" => .working
      | some "max_tokens" => .waitingForInput
      | some "stop_sequence" => .waitingForInput
      | _ => .waitingForInput
    else
      if are_pending_tools_auto_approved checker message.content then
        .working
      else
        .needsPermission
  else
    match message.stop_reason with
    | some "end_turn" => .waitingForInput
    | some "max_tokens" => .waitingForInput
    | some "stop_sequence" => .waitingForInput
    | none => .working
    | _ => .waitingForInput

/-- `is_entry_recent` (status.rs:84-93). Timestamp parsing
(`chrono::DateTime::parse_from_rfc3339`) is abstracted as a function from
the timestamp string to an optional epoch second; `now` is the current
epoch second. An unparseable timestamp counts as not recent. -/
def is_entry_recent (parse_ts : String → Option Int) (now : Int)
    (timestamp : String) (seconds : Int) : Bool :=
  match parse_ts timestamp with
  | some entry_time => now - entry_time < seconds
  | none => false

/-- `determine_status` (status.rs:38-81). `parse_ts` and `now` stand for
the ambient clock read by `is_entry_recent`; the source's `raw_status`
binding is inlined. -/
def determine_status (checker : Checker) (parse_ts : String → Option Int)
    (now : Int) (entries : List SessionEntry) : SessionStatus :=
  match entries.getLast? with
  | none => .connecting
  | some (.user _ _) => .working
  | some (.assistant timestamp message) =>
    if analyze_assistant_message checker message = .working then
      if has_pending_tool_uses message.content
          && !is_entry_recent parse_ts now timestamp 2 then
        .working
      else
        analyze_assistant_message checker message
    else
      analyze_assistant_message checker message
  | some (.other _) => .waitingForInput

/-- `determine_status_with_context` (status.rs:222-258); the source's
`basic_status` binding is inlined. -/
def determine_status_with_context (checker : Checker)
    (parse_ts : String → Option Int) (now : Int)
    (entries : List SessionEntry) : SessionStatus :=
  if entries.isEmpty then
    .connecting
  else if entries.length ≤ 2 then
    .connecting
  else if determine_status checker parse_ts now entries = .working
      ∧ 2 ≤ entries.length then
    match entries[entries.length - 1]?, entries[entries.length - 2]? with
    | some (.assistant _ last_msg), some (.assistant _ _) =>
      if !has_tool_use last_msg.content && last_msg.stop_reason.isSome then
        .waitingForInput
      else
        determine_status checker parse_ts now entries
    | _, _ => determine_status checker parse_ts now entries
  else
    determine_status checker parse_ts now entries

/-! ## Observable side effects

Stateful code is embedded as explicit state passing plus a trace of the
observable side effects each operation performs, in order. Logging to
stderr is not modelled. -/

/-- One observable side effect of the registry / gateway layer. -/
inductive Action where
  /-- `crate::actions::stop_session(pid)` — native process termination. -/
  | stopSession (pid : Nat)
  /-- a sleep of `ms` milliseconds (the takeover settle delay). -/
  | sleepMs (ms : Nat)
  /-- `touch_session_file(session_id)` (pty_writer.rs:91-135). -/
  | touchSessionFile (session_id : String)
  /-- the registry insert inside `take_over_session` (pty_writer.rs:40-46). -/
  | registerSession (session_id : String) (project_path : String)
  /-- `sdk_bridge.send_message(session_id, message, cwd)` (bridge.rs:276-286). -/
  | bridgeSendMessage (session_id : String) (message : String) (cwd : String)
deriving DecidableEq, Repr

/-! ## Session ownership registry (`pty_writer.rs`) -/

/-- `ManagedSession` (pty_writer.rs:5-8). -/
structure ManagedSession where
  session_id : String
  project_path : String
deriving DecidableEq, Repr

/-- The registry `HashMap<String, ManagedSession>` behind the
`SessionMap` mutex, modelled as an association list where insert
prepends and lookup takes the first binding — observationally the
HashMap's insert-overwrites semantics. Lock poisoning is a concurrency
artifact outside the shallow embedding: every lock acquisition is
modelled as succeeding. -/
abbrev SessionMap := List (String × ManagedSession)

/-- `new_session_map` (pty_writer.rs:12-14). -/
def new_session_map : SessionMap := []

/-- Result of one registry mutation: the new map, the trace of observable
effects in order, and the value returned to the caller. -/
structure RegistryStep where
  map : SessionMap
  trace : List Action
  result : Except String Unit
deriving DecidableEq, Repr

/-- `take_over_session` (pty_writer.rs:19-49). The kill step is commented
out in the source (`TODO: re-enable kill once bridge is stable`), so the
`pid` argument is never used: the function only touches the session file
and inserts the `ManagedSession` record. -/
def take_over_session (map : SessionMap) (_pid : Nat)
    (session_id : String) (project_path : String) : RegistryStep :=
  { map := (session_id,
      { session_id := session_id, project_path := project_path }) :: map
    trace := [.touchSessionFile session_id,
              .registerSession session_id project_path]
    result := .ok () }

/-- `get_project_path` (pty_writer.rs:52-60). -/
def get_project_path (map : SessionMap) (session_id : String) :
    Except String String :=
  match map.lookup session_id with
  | some m => .ok m.project_path
  | none => .error ("Session " ++ session_id ++ " is not managed")

/-- `is_managed` (pty_writer.rs:63-67). -/
def is_managed (map : SessionMap) (session_id : String) : Bool :=
  (map.lookup session_id).isSome

/-- Fold a list of `(pid, session_id, project_path)` takeover calls over
the empty registry — the reachable registry states. -/
def run_takeovers (ops : List (Nat × String × String)) : SessionMap :=
  ops.foldl
    (fun m op => (take_over_session m op.1 op.2.1 op.2.2).map)
    new_session_map

/-! ## Subprocess bridge ack handling (`bridge.rs`) -/

/-- `AckResponse` (bridge.rs:42-46). -/
structure AckResponse where
  success : Bool
  error : Option String
deriving DecidableEq, Repr

/-- The possible results of `tokio::time::timeout(30s, rx)` in
`send_command` (bridge.rs:249-252): the oneshot waiter yields an ack, the
30-second timeout elapses first, or the waiter's sender is dropped. -/
inductive AckWait where
  | acked (ack : AckResponse)
  | timedOut
  | channelDropped
deriving DecidableEq, Repr

/-- The value `send_command` returns after a successful write, as a
function of how the ack wait resolves (bridge.rs:248-259). -/
def send_command_result (w : AckWait) : Except String Unit :=
  match w with
  | .timedOut => .error "Bridge command timed out (30s)"
  | .channelDropped => .error "Bridge ack channel dropped"
  | .acked ack =>
    if ack.success then
      .ok ()
    else
      .error (ack.error.getD "Unknown bridge error")

/-! ## Realtime gateway (`web_server.rs`) -/

/-- The server replies produced by the handlers modelled here (the
`ServerMsg` variants of web_server.rs:94-117 that the takeover and
send-input arms can produce). -/
inductive ServerMsg where
  | ok
  | error (message : String)
deriving DecidableEq, Repr

/-- The response of `ws_handler` (web_server.rs:200-215): upgrade the
connection, or reject with `401 Unauthorized` and the given body before
any upgrade happens. -/
inductive WsResponse where
  | upgraded
  | unauthorized (body : String)
deriving DecidableEq, Repr

/-- `ws_handler` (web_server.rs:200-215): upgrade only when the `token`
query parameter is present and equal to `state.auth_token`. -/
def ws_handler (token : Option String) (auth_token : String) : WsResponse :=
  match token with
  | some t =>
    if t = auth_token then .upgraded
    else .unauthorized "Invalid or missing token"
  | none => .unauthorized "Invalid or missing token"

/-- The `TakeoverSession` arm of `handle_message` (web_server.rs:334-357):
if `pid > 0`, stop the native process and sleep 500 ms; then call
`take_over_session` with pid 0 and map its result to a reply. Returns the
new registry, the effect trace in order, and the reply. -/
def handle_takeover_session (map : SessionMap) (pid : Nat)
    (session_id : String) (project_path : String) :
    SessionMap × List Action × ServerMsg :=
  let pre : List Action :=
    if 0 < pid then [.stopSession pid, .sleepMs 500] else []
  let r := take_over_session map 0 session_id project_path
  let reply : ServerMsg :=
    match r.result with
    | .ok _ => .ok
    | .error e => .error e
  (r.map, pre ++ r.trace, reply)

/-- The `SendInput` arm of `handle_message` (web_server.rs:359-382): if
`pid > 0` and the session is not yet managed, stop the native process,
sleep 500 ms and take the session over; then forward the message to the
bridge's `send_message` (whose outcome is the parameter `send_result`);
on success fire the session-file touch and reply `ok`, otherwise reply
with the bridge's error. -/
def handle_send_input (map : SessionMap) (session_id : String)
    (input : String) (project_path : String) (pid : Nat)
    (send_result : Except String Unit) :
    SessionMap × List Action × ServerMsg :=
  let takeover : SessionMap × List Action :=
    if 0 < pid ∧ is_managed map session_id = false then
      let r := take_over_session map 0 session_id project_path
      (r.map, [Action.stopSession pid, Action.sleepMs 500] ++ r.trace)
    else
      (map, [])
  match send_result with
  | .ok _ =>
    (takeover.1,
     takeover.2 ++ [.bridgeSendMessage session_id input project_path,
                    .touchSessionFile session_id],
     .ok)
  | .error e =>
    (takeover.1,
     takeover.2 ++ [.bridgeSendMessage session_id input project_path],
     .error e)

/-! ## Specification-side predicates

These restate, directly from the spec's words, the matched/pending
notions the claims quantify over; the theorems relate them to the
source-translated boolean functions above. -/

/-- Spec §3 invariant side: every `ToolUse.id` in `content` has a
matching `ToolResult.tool_use_id`. -/
def all_tools_matched (content : List MessageContent) : Prop :=
  ∀ id name input, MessageContent.toolUse id name input ∈ content →
    ∃ rcontent e, MessageContent.toolResult id rcontent e ∈ content

/-- Spec §4.2: every pending (unmatched) tool use in `content` is
auto-approved by the checker. -/
def pending_tools_approved (checker : Checker)
    (content : List MessageContent) : Prop :=
  ∀ id name input, MessageContent.toolUse id name input ∈ content →
    (∀ rcontent e, MessageContent.toolResult id rcontent e ∉ content) →
    checker name input = true

/-- The reclassification condition of the smoothing wrapper (spec §4.2):
the last two entries are both assistant messages and the last one has no
tool-use content and a present stop reason. -/
def smoothing_applies (e₁ e₂ : SessionEntry) : Prop :=
  (∃ ts₁ m₁, e₁ = SessionEntry.assistant ts₁ m₁) ∧
  ∃ ts₂ m₂, e₂ = SessionEntry.assistant ts₂ m₂ ∧
    has_tool_use m₂.content = false ∧ m₂.stop_reason.isSome = true

/-! ## Helper lemmas -/

theorem mem_tool_use_ids {content : List MessageContent} {id : String} :
    id ∈ tool_use_ids content ↔
      ∃ name input, MessageContent.toolUse id name input ∈ content := by
  unfold tool_use_ids
  rw [List.mem_filterMap]
  constructor
  · rintro ⟨c, hc, heq⟩
    cases c with
    | toolUse i n inp =>
      simp only [Option.some.injEq] at heq
      subst heq
      exact ⟨n, inp, hc⟩
    | text t => simp at heq
    | toolResult a b c => simp at heq
  · rintro ⟨name, input, hmem⟩
    exact ⟨.toolUse id name input, hmem, rfl⟩

theorem mem_tool_result_ids {content : List MessageContent} {id : String} :
    id ∈ tool_result_ids content ↔
      ∃ rcontent e, MessageContent.toolResult id rcontent e ∈ content := by
  unfold tool_result_ids
  rw [List.mem_filterMap]
  constructor
  · rintro ⟨c, hc, heq⟩
    cases c with
    | toolResult i rc e =>
      simp only [Option.some.injEq] at heq
      subst heq
      exact ⟨rc, e, hc⟩
    | text t => simp at heq
    | toolUse a b c => simp at heq
  · rintro ⟨rcontent, e, hmem⟩
    exact ⟨.toolResult id rcontent e, hmem, rfl⟩

theorem has_tool_use_iff {content : List MessageContent} :
    has_tool_use content = true ↔
      ∃ id name input, MessageContent.toolUse id name input ∈ content := by
  unfold has_tool_use
  rw [List.any_eq_true]
  constructor
  · rintro ⟨c, hc, hmatch⟩
    cases c with
    | toolUse i n inp => exact ⟨i, n, inp, hc⟩
    | text t => simp at hmatch
    | toolResult a b c => simp at hmatch
  · rintro ⟨id, name, input, hmem⟩
    exact ⟨.toolUse id name input, hmem, rfl⟩

theorem contains_tool_result_ids {content : List MessageContent} {id : String} :
    (tool_result_ids content).contains id = true ↔
      ∃ rcontent e, MessageContent.toolResult id rcontent e ∈ content := by
  rw [← mem_tool_result_ids]
  constructor
  · exact List.mem_of_elem_eq_true
  · exact List.elem_eq_true_of_mem

/-- `check_all_tools_completed` computes exactly the spec's
"every tool use has a matching result" condition. -/
theorem check_all_tools_completed_iff (content : List MessageContent) :
    check_all_tools_completed content = true ↔ all_tools_matched content := by
  have hcollapse : check_all_tools_completed content
      = ((tool_use_ids content).all fun id =>
          (tool_result_ids content).contains id) := by
    unfold check_all_tools_completed
    split
    · rename_i h
      rw [List.isEmpty_iff] at h
      rw [h]
      rfl
    · rfl
  rw [hcollapse]
  unfold all_tools_matched
  rw [List.all_eq_true]
  constructor
  · intro h id name input hmem
    have hid : id ∈ tool_use_ids content :=
      mem_tool_use_ids.2 ⟨name, input, hmem⟩
    exact contains_tool_result_ids.1 (h id hid)
  · intro h id hid
    obtain ⟨name, input, hmem⟩ := mem_tool_use_ids.1 hid
    obtain ⟨rcontent, e, hr⟩ := h id name input hmem
    exact contains_tool_result_ids.2 ⟨rcontent, e, hr⟩

/-- `are_pending_tools_auto_approved` computes exactly the spec's
"every pending (unmatched) tool use is auto-approved" condition. -/
theorem are_pending_tools_auto_approved_iff (checker : Checker)
    (content : List MessageContent) :
    are_pending_tools_auto_approved checker content = true ↔
      pending_tools_approved checker content := by
  unfold are_pending_tools_auto_approved pending_tools_approved
  rw [List.all_eq_true]
  constructor
  · intro h id name input hmem hnores
    have hi := h (.toolUse id name input) hmem
    simp only [Bool.or_eq_true] at hi
    rcases hi with hc | hc
    · obtain ⟨rcontent, e, hr⟩ := contains_tool_result_ids.1 hc
      exact absurd hr (hnores rcontent e)
    · exact hc
  · intro h item hmem
    cases item with
    | text t => rfl
    | toolResult a b c => rfl
    | toolUse id name input =>
      simp only [Bool.or_eq_true]
      by_cases hc : (tool_result_ids content).contains id = true
      · exact Or.inl hc
      · refine Or.inr (h id name input hmem ?_)
        intro rcontent e hr
        exact hc (contains_tool_result_ids.2 ⟨rcontent, e, hr⟩)

/-- The grace-period branch of `determine_status` is a no-op: whenever the
last entry is an assistant message, the result is exactly
`analyze_assistant_message` of that message, for any clock. -/
theorem determine_status_eq_analyze (checker : Checker)
    (parse_ts : String → Option Int) (now : Int)
    (entries : List SessionEntry) (ts : String) (m : AssistantMessage)
    (h : entries.getLast? = some (.assistant ts m)) :
    determine_status checker parse_ts now entries
      = analyze_assistant_message checker m := by
  unfold determine_status
  rw [h]
  by_cases hw : analyze_assistant_message checker m = .working
  · simp [hw]
  · simp [hw]

/-- If an assistant message with no tool-use content analyzes to
`Working`, its stop reason must be absent. -/
theorem analyze_working_no_tools (checker : Checker) (m : AssistantMessage)
    (hw : analyze_assistant_message checker m = .working)
    (ht : has_tool_use m.content = false) :
    m.stop_reason = none := by
  unfold analyze_assistant_message at hw
  rw [ht] at hw
  simp only [Bool.false_eq_true, if_false] at hw
  cases hsr : m.stop_reason with
  | none => rfl
  | some s =>
    rw [hsr] at hw
    exfalso
    split at hw <;> simp_all

theorem getLast?_append_pair (pre : List SessionEntry)
    (e₁ e₂ : SessionEntry) :
    (pre ++ [e₁, e₂]).getLast? = some e₂ := by
  rw [show pre ++ [e₁, e₂] = (pre ++ [e₁]) ++ [e₂] by simp]
  exact List.getLast?_concat _

theorem getElem?_penultimate (pre : List SessionEntry)
    (e₁ e₂ : SessionEntry) :
    (pre ++ [e₁, e₂])[(pre ++ [e₁, e₂]).length - 1]? = some e₂ ∧
    (pre ++ [e₁, e₂])[(pre ++ [e₁, e₂]).length - 2]? = some e₁ := by
  have hlen : (pre ++ [e₁, e₂]).length = pre.length + 2 := by simp
  constructor
  · rw [hlen, show pre.length + 2 - 1 = pre.length + 1 from rfl,
      List.getElem?_append_right (by omega)]
    simp
  · rw [hlen, show pre.length + 2 - 2 = pre.length from rfl,
      List.getElem?_append_right (le_refl _)]
    simp

/-! ## Claim theorems -/

/-- C2: `determine_status` returns `Connecting` for the empty entry list;
for every non-empty entry list it returns `Working` when the last entry is
a user message, and `WaitingForInput` when the last entry is neither a
user nor an assistant message (system/meta records). -/
theorem determine_status_base_cases (checker : Checker)
    (parse_ts : String → Option Int) (now : Int) :
    determine_status checker parse_ts now [] = .connecting ∧
    (∀ (pre : List SessionEntry) (ts content : String),
      determine_status checker parse_ts now (pre ++ [.user ts content])
        = .working) ∧
    (∀ (pre : List SessionEntry) (ts : String),
      determine_status checker parse_ts now (pre ++ [.other ts])
        = .waitingForInput) := by
  refine ⟨rfl, ?_, ?_⟩
  · intro pre ts content
    unfold determine_status
    rw [List.getLast?_concat]
  · intro pre ts
    unfold determine_status
    rw [List.getLast?_concat]

/-- C3: the timestamp-age secondary branch of `determine_status` is
observably a no-op: two evaluations of the same entries at any two clock
readings agree. -/
theorem determine_status_time_invariant (checker : Checker)
    (parse_ts : String → Option Int) (now₁ now₂ : Int)
    (entries : List SessionEntry) :
    determine_status checker parse_ts now₁ entries
      = determine_status checker parse_ts now₂ entries := by
  unfold determine_status
  cases h : entries.getLast? with
  | none => rfl
  | some e =>
    cases e with
    | user ts c => rfl
    | other ts => rfl
    | assistant ts m =>
      by_cases hw : analyze_assistant_message checker m = .working
      · simp [hw]
      · simp [hw]

/-- C1: for an entry list ending in an assistant message with at least one
tool use, `determine_status` yields: all tool uses matched → `Working` on
stop reason `tool_use` and `WaitingForInput` on every other (or absent)
stop reason; some tool use unmatched → `Working` when every pending tool
use is auto-approved and `NeedsPermission` otherwise. -/
theorem determine_status_tool_use_classification (checker : Checker)
    (parse_ts : String → Option Int) (now : Int)
    (pre : List SessionEntry) (ts : String) (m : AssistantMessage)
    (htool : ∃ id name input,
      MessageContent.toolUse id name input ∈ m.content) :
    (all_tools_matched m.content →
      (m.stop_reason = some "tool_use" →
        determine_status checker parse_ts now (pre ++ [.assistant ts m])
          = .working) ∧
      (m.stop_reason ≠ some "tool_use" →
        determine_status checker parse_ts now (pre ++ [.assistant ts m])
          = .waitingForInput)) ∧
    (¬ all_tools_matched m.content →
      (pending_tools_approved checker m.content →
        determine_status checker parse_ts now (pre ++ [.assistant ts m])
          = .working) ∧
      (¬ pending_tools_approved checker m.content →
        determine_status checker parse_ts now (pre ++ [.assistant ts m])
          = .needsPermission)) := by
  rw [determine_status_eq_analyze checker parse_ts now _ ts m
    (List.getLast?_concat _)]
  have ht : has_tool_use m.content = true := has_tool_use_iff.2 htool
  unfold analyze_assistant_message
  rw [if_pos ht]
  constructor
  · intro hmatched
    have hc : check_all_tools_completed m.content = true :=
      (check_all_tools_completed_iff m.content).2 hmatched
    rw [if_pos hc]
    constructor
    · intro hsr
      rw [hsr]
      rfl
    · intro hsr
      cases hsrv : m.stop_reason with
      | none => rfl
      | some s =>
        rw [hsrv] at hsr
        have hs : s ≠ "tool_use" := fun h' => hsr (by rw [h'])
        split <;> simp_all
  · intro hunmatched
    have hc : ¬ check_all_tools_completed m.content = true := by
      intro h
      exact absurd ((check_all_tools_completed_iff m.content).1 h) hunmatched
    rw [if_neg hc]
    constructor
    · intro happr
      rw [if_pos ((are_pending_tools_auto_approved_iff checker m.content).2
        happr)]
    · intro hnappr
      have ha : ¬ are_pending_tools_auto_approved checker m.content = true := by
        intro h
        exact absurd
          ((are_pending_tools_auto_approved_iff checker m.content).1 h) hnappr
      rw [if_neg ha]

/-- Witness for C1 at a concrete input: a single pending tool use that the
checker auto-approves classifies as `Working`. -/
theorem determine_status_tool_use_classification_witness :
    determine_status (fun _ _ => true) (fun _ => none) 0
      [.assistant "2026-02-06T12:00:00Z"
        ⟨[.toolUse "toolu_123" "Read" "file"], some "tool_use"⟩]
      = .working := by
  have h := determine_status_tool_use_classification (fun _ _ => true)
    (fun _ => none) 0 [] "2026-02-06T12:00:00Z"
    ⟨[.toolUse "toolu_123" "Read" "file"], some "tool_use"⟩
    ⟨"toolu_123", "Read", "file", by simp⟩
  refine (h.2 ?_).1 ?_
  · intro hm
    obtain ⟨rc, e, hr⟩ := hm "toolu_123" "Read" "file" (by simp)
    simp at hr
  · intro id name input _ _
    rfl

/-- C4: `determine_status_with_context` returns `Connecting` for every
entry list with fewer than 3 entries; with at least 3 entries it returns
`WaitingForInput` instead of a basic `Working` result exactly when the
last two entries are both assistant messages whose last one has no
tool-use content and a present stop reason, and the basic
`determine_status` result otherwise. -/
theorem with_context_spec (checker : Checker)
    (parse_ts : String → Option Int) (now : Int) :
    (∀ entries : List SessionEntry, entries.length < 3 →
      determine_status_with_context checker parse_ts now entries
        = .connecting) ∧
    (∀ (pre : List SessionEntry) (e₁ e₂ : SessionEntry), pre ≠ [] →
      (smoothing_applies e₁ e₂ →
        determine_status checker parse_ts now (pre ++ [e₁, e₂])
          = .working →
        determine_status_with_context checker parse_ts now (pre ++ [e₁, e₂])
          = .waitingForInput) ∧
      ((¬ smoothing_applies e₁ e₂ ∨
          determine_status checker parse_ts now (pre ++ [e₁, e₂])
            ≠ .working) →
        determine_status_with_context checker parse_ts now (pre ++ [e₁, e₂])
          = determine_status checker parse_ts now (pre ++ [e₁, e₂]))) := by
  constructor
  · intro entries hlen
    unfold determine_status_with_context
    cases entries with
    | nil => rfl
    | cons a l =>
      rw [if_neg (by simp), if_pos (by simp at hlen ⊢; omega)]
  · intro pre e₁ e₂ hpre
    have hlen : (pre ++ [e₁, e₂]).length = pre.length + 2 := by simp
    have hp : 0 < pre.length := List.length_pos.2 hpre
    have hi := getElem?_penultimate pre e₁ e₂
    constructor
    · intro hsm hwork
      unfold determine_status_with_context
      rw [if_neg (by simp), if_neg (by rw [hlen]; omega),
        if_pos ⟨hwork, by rw [hlen]; omega⟩, hi.1, hi.2]
      obtain ⟨⟨ts₁, m₁, he₁⟩, ts₂, m₂, he₂, hht, hsome⟩ := hsm
      subst he₁
      subst he₂
      show (if (!has_tool_use m₂.content && m₂.stop_reason.isSome) = true
          then SessionStatus.waitingForInput
          else determine_status checker parse_ts now
            (pre ++ [SessionEntry.assistant ts₁ m₁,
              SessionEntry.assistant ts₂ m₂]))
        = SessionStatus.waitingForInput
      rw [if_pos (by rw [hht, hsome]; rfl)]
    · intro hneg
      unfold determine_status_with_context
      rw [if_neg (by simp), if_neg (by rw [hlen]; omega)]
      by_cases hw : determine_status checker parse_ts now (pre ++ [e₁, e₂])
          = .working
      · rcases hneg with hns | hnw
        · rw [if_pos ⟨hw, by rw [hlen]; omega⟩, hi.1, hi.2]
          cases e₁ with
          | user ts₁ c₁ => cases e₂ <;> rfl
          | other ts₁ => cases e₂ <;> rfl
          | assistant ts₁ m₁ =>
            cases e₂ with
            | user ts₂ c₂ => rfl
            | other ts₂ => rfl
            | assistant ts₂ m₂ =>
              show (if (!has_tool_use m₂.content
                    && m₂.stop_reason.isSome) = true
                  then SessionStatus.waitingForInput
                  else determine_status checker parse_ts now
                    (pre ++ [SessionEntry.assistant ts₁ m₁,
                      SessionEntry.assistant ts₂ m₂]))
                = determine_status checker parse_ts now
                    (pre ++ [SessionEntry.assistant ts₁ m₁,
                      SessionEntry.assistant ts₂ m₂])
              rw [if_neg]
              intro hcond
              simp only [Bool.and_eq_true, Bool.not_eq_eq_eq_not,
                Bool.not_true] at hcond
              exact hns ⟨⟨ts₁, m₁, rfl⟩, ts₂, m₂, rfl, hcond.1, hcond.2⟩
        · exact absurd hw hnw
      · rw [if_neg (fun hcond => hw hcond.1)]

/-- Witness for C4 at a concrete input: the empty list has fewer than 3
entries, so the smoothing wrapper reports `Connecting`. -/
theorem with_context_spec_witness :
    determine_status_with_context (fun _ _ => true) (fun _ => none) 0 []
      = .connecting :=
  (with_context_spec (fun _ _ => true) (fun _ => none) 0).1 [] (by decide)

/-- C5: for every entry list with at least 3 entries,
`determine_status_with_context` agrees with `determine_status`: the
smoothing wrapper's reclassification branch can never fire. -/
theorem with_context_eq_basic (checker : Checker)
    (parse_ts : String → Option Int) (now : Int)
    (entries : List SessionEntry) (h3 : 3 ≤ entries.length) :
    determine_status_with_context checker parse_ts now entries
      = determine_status checker parse_ts now entries := by
  have hne : entries ≠ [] := by
    intro h
    rw [h] at h3
    simp at h3
  unfold determine_status_with_context
  rw [if_neg (by simp [List.isEmpty_iff, hne]), if_neg (by omega)]
  by_cases hb : determine_status checker parse_ts now entries = .working
  · rw [if_pos ⟨hb, by omega⟩, ← List.getLast?_eq_getElem?]
    cases hlast : entries.getLast? with
    | none => rfl
    | some last =>
      cases last with
      | user ts c => rfl
      | other ts =>
        exfalso
        unfold determine_status at hb
        rw [hlast] at hb
        simp at hb
      | assistant ts m =>
        have hw : analyze_assistant_message checker m = .working := by
          rw [determine_status_eq_analyze checker parse_ts now entries ts m
            hlast] at hb
          exact hb
        cases h2 : entries[entries.length - 2]? with
        | none => rfl
        | some e' =>
          cases e' with
          | user ts' c' => rfl
          | other ts' => rfl
          | assistant ts' m' =>
            show (if (!has_tool_use m.content
                  && m.stop_reason.isSome) = true
                then SessionStatus.waitingForInput
                else determine_status checker parse_ts now entries)
              = determine_status checker parse_ts now entries
            by_cases hht : has_tool_use m.content = true
            · rw [if_neg (by simp [hht])]
            · have hnone : m.stop_reason = none :=
                analyze_working_no_tools checker m hw
                  (Bool.eq_false_iff.2 hht)
              rw [if_neg (by simp [hnone])]
  · rw [if_neg (fun hcond => hb hcond.1)]

/-- Witness for C5 at a concrete input: a 3-entry list ending in a user
message, where both functions report `Working`. -/
theorem with_context_eq_basic_witness :
    determine_status_with_context (fun _ _ => true) (fun _ => none) 0
        [.user "t1" "a", .user "t2" "b", .user "t3" "c"]
      = determine_status (fun _ _ => true) (fun _ => none) 0
        [.user "t1" "a", .user "t2" "b", .user "t3" "c"] :=
  with_context_eq_basic (fun _ _ => true) (fun _ => none) 0
    [.user "t1" "a", .user "t2" "b", .user "t3" "c"] (by decide)

theorem lookup_fold_none (ops : List (Nat × String × String))
    (m : SessionMap) (session_id : String)
    (hm : m.lookup session_id = none)
    (h : ∀ op ∈ ops, op.2.1 ≠ session_id) :
    (ops.foldl
      (fun m op => (take_over_session m op.1 op.2.1 op.2.2).map)
      m).lookup session_id = none := by
  induction ops generalizing m with
  | nil => exact hm
  | cons op rest ih =>
    simp only [List.foldl_cons]
    refine ih _ ?_ (fun o ho => h o (List.mem_cons_of_mem _ ho))
    show (((op.2.1, { session_id := op.2.1, project_path := op.2.2 }) :
        String × ManagedSession) :: m).lookup session_id = none
    simp only [List.lookup]
    rw [show (session_id == op.2.1) = false by
      rw [beq_eq_false_iff_ne]
      exact fun e => h op (List.mem_cons_self op rest) e.symm]
    exact hm

/-- C6: after `take_over_session` for `(S, P)`, `is_managed S` is true and
`get_project_path S` returns `P`; for a session id that no takeover ever
registered, `get_project_path` fails with the "not managed" error. -/
theorem registry_take_over_spec :
    (∀ (map : SessionMap) (pid : Nat) (session_id project_path : String),
      is_managed (take_over_session map pid session_id project_path).map
          session_id = true ∧
      get_project_path
          (take_over_session map pid session_id project_path).map session_id
        = .ok project_path) ∧
    (∀ (ops : List (Nat × String × String)) (session_id : String),
      (∀ op ∈ ops, op.2.1 ≠ session_id) →
      get_project_path (run_takeovers ops) session_id
        = .error ("Session " ++ session_id ++ " is not managed")) := by
  constructor
  · intro map pid session_id project_path
    constructor
    · unfold is_managed take_over_session
      simp [List.lookup]
    · unfold get_project_path take_over_session
      simp [List.lookup]
  · intro ops session_id h
    unfold get_project_path run_takeovers
    rw [lookup_fold_none ops new_session_map session_id rfl h]

/-- Witness for C6 at a concrete input: one takeover for another id leaves
`"sess-b"` unmanaged, and `get_project_path` reports the "not managed"
error. -/
theorem registry_take_over_spec_witness :
    get_project_path (run_takeovers [(0, "sess-a", "/proj/a")]) "sess-b"
      = .error ("Session " ++ "sess-b" ++ " is not managed") :=
  registry_take_over_spec.2 [(0, "sess-a", "/proj/a")] "sess-b" (by decide)

/-- C7: after a successful write, `send_command` resolves to exactly one
of three outcomes — ack with `success=true` gives `Ok`, ack with
`success=false` gives an error carrying the ack's error message, and the
30-second timeout versus the dropped waiter give the two distinct errors
`"Bridge command timed out (30s)"` and `"Bridge ack channel dropped"`. -/
theorem send_command_outcomes (w : AckWait) :
    ((∃ ack, w = .acked ack) ∨ w = .timedOut ∨ w = .channelDropped) ∧
    (∀ ack, w = .acked ack → ack.success = true →
      send_command_result w = .ok ()) ∧
    (∀ ack msg, w = .acked ack → ack.success = false →
      ack.error = some msg → send_command_result w = .error msg) ∧
    (∀ ack, w = .acked ack → ack.success = false →
      send_command_result w
        = .error (ack.error.getD "Unknown bridge error")) ∧
    (w = .timedOut →
      send_command_result w = .error "Bridge command timed out (30s)") ∧
    (w = .channelDropped →
      send_command_result w = .error "Bridge ack channel dropped") ∧
    ("Bridge command timed out (30s)" : String)
      ≠ "Bridge ack channel dropped" := by
  refine ⟨?_, ?_, ?_, ?_, ?_, ?_, by decide⟩
  · cases w with
    | acked a => exact Or.inl ⟨a, rfl⟩
    | timedOut => exact Or.inr (Or.inl rfl)
    | channelDropped => exact Or.inr (Or.inr rfl)
  · rintro ack rfl hs
    simp only [send_command_result]
    rw [if_pos hs]
  · rintro ack msg rfl hs he
    simp only [send_command_result]
    rw [if_neg (by simp [hs]), he]
    rfl
  · rintro ack rfl hs
    simp only [send_command_result]
    rw [if_neg (by simp [hs])]
  · rintro rfl
    rfl
  · rintro rfl
    rfl

/-- Witness for C7 at a concrete input: the timeout outcome produces the
30-second timeout error. -/
theorem send_command_outcomes_witness :
    send_command_result .timedOut
      = .error "Bridge command timed out (30s)" :=
  (send_command_outcomes .timedOut).2.2.2.2.1 rfl

/-- C8: with a nonzero pid, the takeover handler's effect trace is
exactly stop, settle (500 ms), then the takeover's touch-and-register;
and the send-input handler performs the same stop/settle/register
sequence before forwarding to the bridge whenever the session is not yet
managed. -/
theorem handlers_stop_settle_register (map : SessionMap) (pid : Nat)
    (session_id input project_path : String)
    (send_result : Except String Unit) (hpid : 0 < pid) :
    (handle_takeover_session map pid session_id project_path).2.1
      = [.stopSession pid, .sleepMs 500, .touchSessionFile session_id,
         .registerSession session_id project_path] ∧
    (is_managed map session_id = false →
      (handle_send_input map session_id input project_path pid
          send_result).2.1
        = [.stopSession pid, .sleepMs 500, .touchSessionFile session_id,
           .registerSession session_id project_path,
           .bridgeSendMessage session_id input project_path]
          ++ (match send_result with
              | .ok _ => [.touchSessionFile session_id]
              | .error _ => [])) := by
  constructor
  · simp [handle_takeover_session, take_over_session, hpid]
  · intro hm
    unfold handle_send_input
    rw [if_pos ⟨hpid, hm⟩]
    cases send_result with
    | ok u => rfl
    | error e => rfl

/-- Witness for C8 at a concrete input: pid 7, unmanaged session. -/
theorem handlers_stop_settle_register_witness :
    (handle_takeover_session [] 7 "sess" "/proj").2.1
      = [.stopSession 7, .sleepMs 500, .touchSessionFile "sess",
         .registerSession "sess" "/proj"] :=
  (handlers_stop_settle_register [] 7 "sess" "hello" "/proj" (.ok ())
    (by decide)).1

/-- C9: the gateway upgrades to a WebSocket connection exactly when the
`token` query parameter equals the configured shared secret; a mismatched
or absent token yields the unauthorized response instead of an upgrade. -/
theorem ws_handler_auth (token : Option String) (auth_token : String) :
    (ws_handler token auth_token = .upgraded ↔ token = some auth_token) ∧
    (token ≠ some auth_token →
      ws_handler token auth_token
        = .unauthorized "Invalid or missing token") := by
  constructor
  · constructor
    · intro h
      cases token with
      | none => simp [ws_handler] at h
      | some t =>
        simp only [ws_handler] at h
        by_cases ht : t = auth_token
        · rw [ht]
        · rw [if_neg ht] at h
          simp at h
    · rintro rfl
      simp [ws_handler]
  · intro hne
    cases token with
    | none => rfl
    | some t =>
      simp only [ws_handler]
      rw [if_neg (fun h => hne (by rw [h]))]

/-- Witness for C9 at concrete inputs: the matching token upgrades and the
absent token is rejected. -/
theorem ws_handler_auth_witness :
    ws_handler (some "secret") "secret" = .upgraded ∧
    ws_handler none "secret" = .unauthorized "Invalid or missing token" :=
  ⟨(ws_handler_auth (some "secret") "secret").1.2 rfl,
   (ws_handler_auth none "secret").2 (by decide)⟩

/-- C10: `take_over_session` ignores its pid argument — any two calls
differing only in pid return identical registry state, trace and result,
and the trace contains no process termination: the documented
kill-on-takeover step is disabled in the source. -/
theorem take_over_session_pid_independent (map : SessionMap)
    (pid₁ pid₂ : Nat) (session_id project_path : String) :
    take_over_session map pid₁ session_id project_path
      = take_over_session map pid₂ session_id project_path ∧
    (take_over_session map pid₁ session_id project_path).trace
      = [.touchSessionFile session_id,
         .registerSession session_id project_path] ∧
    (take_over_session map pid₁ session_id project_path).result = .ok () :=
  ⟨rfl, rfl, rfl⟩

end C9watch
